import Mathlib

/-!
Shallow embedding of src/src/plugins/PluginManager.tsx.

The manager keeps three pieces of state (fields of the PluginManager class):
  pluginLibrary        : SerializedPlugin[]
  pluginProcesses      : Record<string, PluginProcess>
  pluginProcessInfos   : Record<string, ProcessInfo>
JavaScript records with string keys are embedded as association lists with
unique keys; lookup / insert / delete are mlookup / minsert / merase below.

Plugin code is untrusted JavaScript.  During spawn it can only interact with
the manager through the injected register helper, so a run of a plugin body
is abstracted by a PluginBehavior: the list of instances it passes to
register, in order, and whether its execution ends by raising.  Whether a
render or destroy capability call raises is likewise an oracle parameter of
the corresponding operation.
-/

/-- A plugin definition as stored in the library (SerializedPlugin.tsx):
code, name, lastEdited timestamp, enabled flag and identity. -/
structure SerializedPlugin where
  code : String
  name : String
  lastEdited : Nat
  enabled : Bool
  id : String
deriving DecidableEq, Repr

/-- Book-keeping information about a running process (class ProcessInfo,
lines 23-26 of the source): both fields initialise to false. -/
structure ProcessInfo where
  rendered : Bool
  hasError : Bool
deriving DecidableEq, Repr

/-- The value of a fresh ProcessInfo object. -/
def ProcessInfo.new : ProcessInfo := ⟨false, false⟩

/-- A live plugin instance (PluginProcess).  An instance optionally exposes a
render and a destroy capability; pid is an abstract identity token so that
distinct instances are distinguishable values. -/
structure PluginProcess where
  pid : Nat
  hasRender : Bool
  hasDestroy : Bool
deriving DecidableEq, Repr

/-- Abstraction of one execution of a plugin body: the instances it passes to
the injected register helper, in order, and whether the body finally raises.
A body that raises between two register calls is the behavior whose
registration list stops at the raise. -/
structure PluginBehavior where
  registrations : List PluginProcess
  throws : Bool
deriving DecidableEq, Repr

/-- Observable events of a manager operation: compiling-and-invoking a plugin
source text, and invoking an instance render capability. -/
inductive Event where
  | sourceInvoked (code : String)
  | renderInvoked (id : String)
deriving DecidableEq, Repr

/-- Lookup in a JavaScript-style record embedded as an association list. -/
def mlookup {κ β : Type} [DecidableEq κ] : List (κ × β) → κ → Option β
  | [], _ => none
  | (a, b) :: rest, k => if a = k then some b else mlookup rest k

/-- Assignment rec[k] = v: overwrites in place if the key exists, otherwise
appends the new binding. -/
def minsert {κ β : Type} [DecidableEq κ] : List (κ × β) → κ → β → List (κ × β)
  | [], k, v => [(k, v)]
  | (a, b) :: rest, k, v =>
    if a = k then (a, v) :: rest else (a, b) :: minsert rest k v

/-- Deletion delete rec[k]. -/
def merase {κ β : Type} [DecidableEq κ] : List (κ × β) → κ → List (κ × β)
  | [], _ => []
  | (a, b) :: rest, k =>
    if a = k then merase rest k else (a, b) :: merase rest k

theorem mlookup_minsert {κ β : Type} [DecidableEq κ]
    (m : List (κ × β)) (k k' : κ) (v : β) :
    mlookup (minsert m k v) k' = if k = k' then some v else mlookup m k' := by
  induction m with
  | nil =>
    by_cases h : k = k' <;> simp [minsert, mlookup, h]
  | cons hd tl ih =>
    obtain ⟨a, b⟩ := hd
    by_cases ha : a = k
    · subst ha
      by_cases h : a = k' <;> simp [minsert, mlookup, h]
    · by_cases h : a = k'
      · subst h
        have : ¬ k = a := fun hk => ha hk.symm
        simp [minsert, mlookup, ha, this]
      · simp [minsert, mlookup, ha, h, ih]

theorem mlookup_merase {κ β : Type} [DecidableEq κ]
    (m : List (κ × β)) (k k' : κ) :
    mlookup (merase m k) k' = if k = k' then none else mlookup m k' := by
  induction m with
  | nil => by_cases h : k = k' <;> simp [merase, mlookup, h]
  | cons hd tl ih =>
    obtain ⟨a, b⟩ := hd
    by_cases ha : a = k
    · subst ha
      by_cases h : a = k'
      · subst h; simpa [merase, mlookup] using ih
      · simpa [merase, mlookup, h] using ih
    · by_cases h : a = k'
      · subst h
        have hk : ¬ k = a := fun hk => ha hk.symm
        simp [merase, mlookup, ha, hk]
      · simp [merase, mlookup, ha, h, ih]

/-- Modelled from the spec: the source text of the README example plugin.
The file src/plugins/examples/ReadmePlugin.tsx is part of the repository but
not under src/ here; the spec only says load seeds "a fixed set of example
definitions", so the text is an opaque constant. -/
def README_PLUGIN : String := "readme example plugin source"

/-- Modelled from the spec: the source text of the Artifacts Finder example
plugin (src/plugins/examples/ArtifactsFinderPlugin.tsx, not under src/). -/
def ARTIFACT_FINDER_PLUGIN : String := "artifacts finder example plugin source"

/-- The state of a PluginManager instance together with its two external
collaborators.  pluginLibrary, pluginProcesses and pluginProcessInfos are the
three private fields of the class.  persisted models the persistence
collaborator (Modelled from the spec: loadPlugins returns the sequence last
passed to savePlugins, last write wins).  hasAddedDefaultPlugins models the
one-time UI-state flag UIDataKey.hasAddedDefaultPlugins (Modelled from the
spec: getUIDataItem returns what setUIDataItem stored). -/
structure ManagerState where
  pluginLibrary : List SerializedPlugin
  pluginProcesses : List (String × PluginProcess)
  pluginProcessInfos : List (String × ProcessInfo)
  persisted : List SerializedPlugin
  hasAddedDefaultPlugins : Bool
deriving DecidableEq, Repr

namespace PluginManager

/-- The state right after the constructor runs: all three fields empty
(lines 79-81), nothing persisted yet, the one-time flag unset. -/
def initState : ManagerState :=
  { pluginLibrary := []
    pluginProcesses := []
    pluginProcessInfos := []
    persisted := []
    hasAddedDefaultPlugins := false }

/-- The first match of pluginLibrary.find with predicate p.id === id,
used by getPluginFromLibrary (line 137) and spawn (line 190). -/
def findPlugin : List SerializedPlugin → String → Option SerializedPlugin
  | [], _ => none
  | p :: rest, id => if p.id = id then some p else findPlugin rest id

/-- getPluginFromLibrary (lines 136-138).  Note that the source returns the
internal library object itself, not a copy; in this pure value model the
distinction is invisible, the aliasing consequences are treated in the heap
refinement RState below. -/
def getPluginFromLibrary (st : ManagerState) (id : String) :
    Option SerializedPlugin :=
  findPlugin st.pluginLibrary id

/-- getLibrary (lines 245-247): the library, element-wise deep-copied.  In
the pure value model a deep copy is the value itself. -/
def getLibrary (st : ManagerState) : List SerializedPlugin :=
  st.pluginLibrary

/-- getProcessInfo (lines 252-254) returns PluginManager.copy applied to
pluginProcessInfos[id].  copy is JSON.parse(JSON.stringify(x)): when the
record has no entry for id, JSON.stringify(undefined) evaluates to the
undefined value and JSON.parse then coerces it to the string undefined and
raises a SyntaxError, embedded here as Except.error; for a present entry the
round trip reproduces the record (booleans only). -/
def getProcessInfo (st : ManagerState) (id : String) : Except Unit ProcessInfo :=
  match mlookup st.pluginProcessInfos id with
  | none => Except.error ()
  | some i => Except.ok i

/-- getAllProcessInfos (lines 259-267): one copied entry per key of
pluginProcessInfos. -/
def getAllProcessInfos (st : ManagerState) : List (String × ProcessInfo) :=
  st.pluginProcessInfos

/-- The assignment this.pluginProcessInfos[id].hasError = true (lines 97 and
210).  At both call sites the entry is present; the absent case (where the
JavaScript assignment would raise a TypeError) is handled separately at the
one place it matters, in destroyBody. -/
def setHasError (m : List (String × ProcessInfo)) (id : String) :
    List (String × ProcessInfo) :=
  match mlookup m id with
  | none => m
  | some i => minsert m id { i with hasError := true }

/-- The try/catch part of destroy (lines 90-98) for a present process: invoke
the destroy capability when the instance exposes one; destroyThrows says
whether that call raises.  On a raise the catch block sets hasError on the
bookkeeping record; if that record were absent the JavaScript assignment
itself would raise a TypeError that escapes the catch block, reported in the
Bool component (true = an uncaught error propagates to the caller). -/
def destroyBody (st : ManagerState) (destroyThrows : Bool) (id : String)
    (proc : PluginProcess) : ManagerState × Bool :=
  if proc.hasDestroy && destroyThrows then
    match mlookup st.pluginProcessInfos id with
    | some i =>
      ({ st with pluginProcessInfos :=
          minsert st.pluginProcessInfos id { i with hasError := true } }, false)
    | none => (st, true)
  else (st, false)

/-- The finally block of destroy (lines 99-102): delete both entries. -/
def destroyFinally (st : ManagerState) (id : String) : ManagerState :=
  { st with
    pluginProcesses := merase st.pluginProcesses id
    pluginProcessInfos := merase st.pluginProcessInfos id }

/-- destroy (lines 88-104).  The Bool component is true when an error
propagates to the caller (only possible in the unreachable
registry-entry-without-bookkeeping case, see destroyBody). -/
def destroy (st : ManagerState) (destroyThrows : Bool) (id : String) :
    ManagerState × Bool :=
  match mlookup st.pluginProcesses id with
  | none => (st, false)
  | some proc =>
    let r := destroyBody st destroyThrows id proc
    (destroyFinally r.1 id, r.2)

/-- addPluginToLibrary (lines 165-178).  freshId stands for the uuid the
source draws, now for new Date().getTime().  The push appends; savePlugins
then persists the whole library.  The source returns
PluginManager.copy(newPlugin); in the pure value model that is the value
itself. -/
def addPluginToLibrary (st : ManagerState) (name code : String)
    (freshId : String) (now : Nat) : ManagerState × SerializedPlugin :=
  let newPlugin : SerializedPlugin :=
    { code := code, name := name, lastEdited := now, enabled := true
      id := freshId }
  let lib := st.pluginLibrary ++ [newPlugin]
  ({ st with pluginLibrary := lib, persisted := lib }, newPlugin)

/-- load (lines 112-120): when the one-time flag is unset, set it and add the
two example plugins (with fresh identities id1, id2 and timestamp now), then
replace the in-memory library by what the persistence collaborator returns. -/
def load (st : ManagerState) (id1 id2 : String) (now : Nat) : ManagerState :=
  let st1 :=
    if !st.hasAddedDefaultPlugins then
      let stF := { st with hasAddedDefaultPlugins := true }
      let stR := (addPluginToLibrary stF "README" README_PLUGIN id1 now).1
      (addPluginToLibrary stR "Artifacts Finder" ARTIFACT_FINDER_PLUGIN
        id2 now).1
    else st
  { st1 with pluginLibrary := st1.persisted }

/-- The filter this.pluginLibrary.filter(p, p.id !== pluginId) of
deletePlugin (line 127). -/
def removePlugin : List SerializedPlugin → String → List SerializedPlugin
  | [], _ => []
  | p :: rest, id =>
    if p.id = id then removePlugin rest id else p :: removePlugin rest id

/-- deletePlugin (lines 126-130): drop the definition from the library, kill
any running process, persist.  When destroy propagates an error (unreachable
with intact bookkeeping) the await of savePlugins is never reached. -/
def deletePlugin (st : ManagerState) (destroyThrows : Bool) (id : String) :
    ManagerState × Bool :=
  let st1 := { st with pluginLibrary := removePlugin st.pluginLibrary id }
  let r := destroy st1 destroyThrows id
  if r.2 then r
  else ({ r.1 with persisted := r.1.pluginLibrary }, false)

/-- The in-place edit of overwritePlugin (lines 154-157): the object found by
getPluginFromLibrary, an alias of the first library entry with this id, gets
its code, name and lastEdited fields overwritten. -/
def updateFirst (lib : List SerializedPlugin) (id : String)
    (f : SerializedPlugin → SerializedPlugin) : List SerializedPlugin :=
  match lib with
  | [] => []
  | p :: rest => if p.id = id then f p :: rest else p :: updateFirst rest id f

/-- overwritePlugin (lines 145-160): destroy unconditionally, then, only if
the definition exists, mutate it in place and persist. -/
def overwritePlugin (st : ManagerState) (destroyThrows : Bool)
    (newName pluginCode : String) (id : String) (now : Nat) :
    ManagerState × Bool :=
  let r := destroy st destroyThrows id
  if r.2 then r
  else
    let st1 := r.1
    match findPlugin st1.pluginLibrary id with
    | none => (st1, false)
    | some _ =>
      let lib := updateFirst st1.pluginLibrary id fun p =>
        { p with code := pluginCode, name := newName, lastEdited := now }
      ({ st1 with pluginLibrary := lib, persisted := lib }, false)

/-- The register helper handed to the plugin body (lines 199-203), iterated
over every call the body makes: register installs the instance only if the
slot for the spawned id is still empty, later calls are ignored. -/
def registerAll (procs : List (String × PluginProcess)) (id : String) :
    List PluginProcess → List (String × PluginProcess)
  | [] => procs
  | p :: rest =>
    match mlookup procs id with
    | none => registerAll (minsert procs id p) id rest
    | some _ => registerAll procs id rest

/-- spawn (lines 185-214).  exec gives the behavior of the compiled body for
each source text.  Returns the new state, the value spawn resolves with, and
the observable events (compiling-and-invoking a source emits sourceInvoked).
Order as in the source: early return on a live instance; silent return on a
missing definition; fresh bookkeeping record before the invocation; the body
may register instances (first wins); a raise marks hasError and is not
propagated; the registry slot for plugin.id is returned either way. -/
def spawn (exec : String → PluginBehavior) (st : ManagerState) (id : String) :
    ManagerState × Option PluginProcess × List Event :=
  match mlookup st.pluginProcesses id with
  | some p => (st, some p, [])
  | none =>
    match findPlugin st.pluginLibrary id with
    | none => (st, none, [])
    | some plugin =>
      let beh := exec plugin.code
      let infos1 := minsert st.pluginProcessInfos plugin.id ProcessInfo.new
      let procs1 := registerAll st.pluginProcesses id beh.registrations
      let infos2 := if beh.throws then setHasError infos1 id else infos1
      ({ st with pluginProcesses := procs1, pluginProcessInfos := infos2 },
       mlookup procs1 plugin.id, [Event.sourceInvoked plugin.code])

/-- render (lines 220-240): spawn first, then read the bookkeeping record;
invoke the render capability only when an instance was returned, it exposes
render, the record exists and rendered is still false.  renderThrows says
whether that capability call raises: on success rendered becomes true, on a
raise hasError becomes true and nothing propagates.  The surface argument is
opaque and omitted. -/
def render (exec : String → PluginBehavior) (st : ManagerState) (id : String)
    (renderThrows : Bool) : ManagerState × List Event :=
  let s := spawn exec st id
  let st1 := s.1
  match s.2.1, mlookup st1.pluginProcessInfos id with
  | some proc, some info =>
    if proc.hasRender && !info.rendered then
      if renderThrows then
        let infos := minsert st1.pluginProcessInfos id
          { info with hasError := true }
        ({ st1 with pluginProcessInfos := infos },
         s.2.2 ++ [Event.renderInvoked id])
      else
        let infos := minsert st1.pluginProcessInfos id
          { info with rendered := true }
        ({ st1 with pluginProcessInfos := infos },
         s.2.2 ++ [Event.renderInvoked id])
    else (st1, s.2.2)
  | _, _ => (st1, s.2.2)

end PluginManager

namespace PluginManager

theorem findPlugin_id_eq (lib : List SerializedPlugin) (id : String)
    (p : SerializedPlugin) (h : findPlugin lib id = some p) : p.id = id := by
  induction lib with
  | nil => simp [findPlugin] at h
  | cons q rest ih =>
    by_cases hq : q.id = id
    · simp [findPlugin, hq] at h
      subst h; exact hq
    · simp [findPlugin, hq] at h
      exact ih h

theorem mlookup_setHasError (m : List (String × ProcessInfo)) (id k : String) :
    mlookup (setHasError m id) k =
      if id = k then (mlookup m id).map (fun i => { i with hasError := true })
      else mlookup m k := by
  unfold setHasError
  cases hm : mlookup m id with
  | none =>
    by_cases h : id = k
    · subst h; simp [hm]
    · simp [h]
  | some i =>
    rw [mlookup_minsert]
    by_cases h : id = k <;> simp [h, hm]

theorem registerAll_lookup_ne (procs : List (String × PluginProcess))
    (id : String) (regs : List PluginProcess) (k : String) (h : k ≠ id) :
    mlookup (registerAll procs id regs) k = mlookup procs k := by
  induction regs generalizing procs with
  | nil => rfl
  | cons p rest ih =>
    unfold registerAll
    cases hm : mlookup procs id with
    | none =>
      rw [ih, mlookup_minsert, if_neg (Ne.symm h)]
    | some q => exact ih procs

theorem registerAll_lookup_self (procs : List (String × PluginProcess))
    (id : String) (regs : List PluginProcess) :
    mlookup (registerAll procs id regs) id =
      (mlookup procs id).or regs.head? := by
  induction regs generalizing procs with
  | nil => cases hm : mlookup procs id <;> simp [registerAll, hm]
  | cons p rest ih =>
    unfold registerAll
    cases hm : mlookup procs id with
    | none =>
      rw [ih, mlookup_minsert]
      simp
    | some q => rw [ih, hm]; simp

/-- Lines 186-188: a live instance short-circuits spawn, with no state change
and no source invocation. -/
theorem spawn_of_live (exec : String → PluginBehavior) (st : ManagerState)
    (id : String) (p : PluginProcess)
    (h : mlookup st.pluginProcesses id = some p) :
    spawn exec st id = (st, some p, []) := by
  simp [spawn, h]

/-- Lines 190-194: no live instance and no definition: silent absent result. -/
theorem spawn_of_missing (exec : String → PluginBehavior) (st : ManagerState)
    (id : String) (h1 : mlookup st.pluginProcesses id = none)
    (h2 : findPlugin st.pluginLibrary id = none) :
    spawn exec st id = (st, none, []) := by
  simp [spawn, h1, h2]

/-- The main path of spawn, lines 196-213, written with the behavior of the
compiled source spelled out. -/
theorem spawn_main (exec : String → PluginBehavior) (st : ManagerState)
    (id : String) (plugin : SerializedPlugin)
    (h1 : mlookup st.pluginProcesses id = none)
    (h2 : findPlugin st.pluginLibrary id = some plugin) :
    spawn exec st id =
      (let beh := exec plugin.code
       let infos1 := minsert st.pluginProcessInfos plugin.id ProcessInfo.new
       let procs1 := registerAll st.pluginProcesses id beh.registrations
       let infos2 := if beh.throws then setHasError infos1 id else infos1
       ({ st with pluginProcesses := procs1, pluginProcessInfos := infos2 },
        mlookup procs1 plugin.id, [Event.sourceInvoked plugin.code])) := by
  simp [spawn, h1, h2]

/-- The value spawn resolves with is always the content of the registry slot
for id in the state spawn leaves behind (lines 187 and 213). -/
theorem spawn_ret (exec : String → PluginBehavior) (st : ManagerState)
    (id : String) :
    (spawn exec st id).2.1 =
      mlookup (spawn exec st id).1.pluginProcesses id := by
  cases h1 : mlookup st.pluginProcesses id with
  | some p => rw [spawn_of_live exec st id p h1]; exact h1.symm
  | none =>
    cases h2 : findPlugin st.pluginLibrary id with
    | none => rw [spawn_of_missing exec st id h1 h2]; exact h1.symm
    | some plugin =>
      rw [spawn_main exec st id plugin h1 h2]
      simp [findPlugin_id_eq st.pluginLibrary id plugin h2]

/-- spawn touches neither the library nor the persistence collaborator nor
the one-time flag. -/
theorem spawn_frame (exec : String → PluginBehavior) (st : ManagerState)
    (id : String) :
    (spawn exec st id).1.pluginLibrary = st.pluginLibrary ∧
    (spawn exec st id).1.persisted = st.persisted ∧
    (spawn exec st id).1.hasAddedDefaultPlugins = st.hasAddedDefaultPlugins := by
  cases h1 : mlookup st.pluginProcesses id with
  | some p => rw [spawn_of_live exec st id p h1]; exact ⟨rfl, rfl, rfl⟩
  | none =>
    cases h2 : findPlugin st.pluginLibrary id with
    | none => rw [spawn_of_missing exec st id h1 h2]; exact ⟨rfl, rfl, rfl⟩
    | some plugin =>
      rw [spawn_main exec st id plugin h1 h2]
      exact ⟨rfl, rfl, rfl⟩

/-- spawn emits at most one event, and any event it emits is a source
invocation. -/
theorem spawn_events (exec : String → PluginBehavior) (st : ManagerState)
    (id : String) :
    (spawn exec st id).2.2 = [] ∨
      ∃ c, (spawn exec st id).2.2 = [Event.sourceInvoked c] := by
  cases h1 : mlookup st.pluginProcesses id with
  | some p => rw [spawn_of_live exec st id p h1]; exact Or.inl rfl
  | none =>
    cases h2 : findPlugin st.pluginLibrary id with
    | none => rw [spawn_of_missing exec st id h1 h2]; exact Or.inl rfl
    | some plugin =>
      rw [spawn_main exec st id plugin h1 h2]
      exact Or.inr ⟨plugin.code, rfl⟩

/-- Registry slots other than the spawned one are untouched by spawn. -/
theorem spawn_procs_ne (exec : String → PluginBehavior) (st : ManagerState)
    (id k : String) (h : k ≠ id) :
    mlookup (spawn exec st id).1.pluginProcesses k =
      mlookup st.pluginProcesses k := by
  cases h1 : mlookup st.pluginProcesses id with
  | some p => rw [spawn_of_live exec st id p h1]
  | none =>
    cases h2 : findPlugin st.pluginLibrary id with
    | none => rw [spawn_of_missing exec st id h1 h2]
    | some plugin =>
      rw [spawn_main exec st id plugin h1 h2]
      exact registerAll_lookup_ne st.pluginProcesses id _ k h

end PluginManager

namespace PluginManager

/-- After the main path of spawn the bookkeeping record for id is fresh
except that hasError reflects whether the body raised (lines 196 and 210). -/
theorem spawn_infos_main (exec : String → PluginBehavior) (st : ManagerState)
    (id : String) (plugin : SerializedPlugin)
    (h1 : mlookup st.pluginProcesses id = none)
    (h2 : findPlugin st.pluginLibrary id = some plugin) :
    mlookup (spawn exec st id).1.pluginProcessInfos id =
      some ⟨false, (exec plugin.code).throws⟩ := by
  have hid : plugin.id = id := findPlugin_id_eq st.pluginLibrary id plugin h2
  rw [spawn_main exec st id plugin h1 h2]
  simp only [hid]
  cases ht : (exec plugin.code).throws with
  | false =>
    simp only [Bool.false_eq_true, if_false, mlookup_minsert, if_pos rfl]
    rfl
  | true =>
    simp only [if_true, mlookup_setHasError, if_pos rfl, mlookup_minsert]
    rfl

/-- After the main path of spawn the registry slot for id holds the first
instance the body registered, if any (first-wins, lines 199-203). -/
theorem spawn_procs_main (exec : String → PluginBehavior) (st : ManagerState)
    (id : String) (plugin : SerializedPlugin)
    (h1 : mlookup st.pluginProcesses id = none)
    (h2 : findPlugin st.pluginLibrary id = some plugin) :
    mlookup (spawn exec st id).1.pluginProcesses id =
      (exec plugin.code).registrations.head? := by
  rw [spawn_main exec st id plugin h1 h2]
  simp only [registerAll_lookup_self, h1, Option.or]

/-- Bookkeeping records of other identities are untouched by spawn. -/
theorem spawn_infos_ne (exec : String → PluginBehavior) (st : ManagerState)
    (id k : String) (h : k ≠ id)
    (hlib : ∀ plugin, findPlugin st.pluginLibrary id = some plugin →
      plugin.id = id) :
    mlookup (spawn exec st id).1.pluginProcessInfos k =
      mlookup st.pluginProcessInfos k := by
  cases h1 : mlookup st.pluginProcesses id with
  | some p => rw [spawn_of_live exec st id p h1]
  | none =>
    cases h2 : findPlugin st.pluginLibrary id with
    | none => rw [spawn_of_missing exec st id h1 h2]
    | some plugin =>
      have hid : plugin.id = id := hlib plugin h2
      rw [spawn_main exec st id plugin h1 h2]
      simp only [hid]
      cases (exec plugin.code).throws with
      | false =>
        simp only [Bool.false_eq_true, if_false, mlookup_minsert,
          if_neg (Ne.symm h)]
      | true =>
        simp only [if_true, mlookup_setHasError, if_neg (Ne.symm h),
          mlookup_minsert, if_neg (Ne.symm h)]

/-- Line 89: destroy of an identity with no live instance changes nothing. -/
theorem destroy_of_absent (st : ManagerState) (dt : Bool) (id : String)
    (h : mlookup st.pluginProcesses id = none) :
    destroy st dt id = (st, false) := by
  simp [destroy, h]

/-- Whatever happens, after destroy the registry has no slot for id. -/
theorem destroy_procs_self (st : ManagerState) (dt : Bool) (id : String) :
    mlookup (destroy st dt id).1.pluginProcesses id = none := by
  cases h : mlookup st.pluginProcesses id with
  | none => rw [destroy_of_absent st dt id h]; exact h
  | some proc =>
    simp [destroy, h, destroyFinally, mlookup_merase]

/-- When a live instance exists, destroy also deletes the bookkeeping record
(the finally block, lines 99-102). -/
theorem destroy_infos_of_live (st : ManagerState) (dt : Bool) (id : String)
    (proc : PluginProcess) (h : mlookup st.pluginProcesses id = some proc) :
    mlookup (destroy st dt id).1.pluginProcessInfos id = none := by
  simp [destroy, h, destroyFinally, mlookup_merase]

/-- destroy leaves every other identity alone, in both maps. -/
theorem destroy_ne (st : ManagerState) (dt : Bool) (id k : String)
    (h : k ≠ id) :
    mlookup (destroy st dt id).1.pluginProcesses k =
        mlookup st.pluginProcesses k ∧
      mlookup (destroy st dt id).1.pluginProcessInfos k =
        mlookup st.pluginProcessInfos k := by
  cases hp : mlookup st.pluginProcesses id with
  | none => rw [destroy_of_absent st dt id hp]; exact ⟨rfl, rfl⟩
  | some proc =>
    simp only [destroy, hp, destroyFinally, destroyBody]
    by_cases hd : proc.hasDestroy && dt
    · simp only [hd, if_true]
      cases hi : mlookup st.pluginProcessInfos id with
      | none =>
        simp only [mlookup_merase, if_neg (Ne.symm h), and_self]
      | some i =>
        simp only [mlookup_merase, if_neg (Ne.symm h), mlookup_minsert,
          if_neg (Ne.symm h), and_self]
    · simp [hd, mlookup_merase, if_neg (Ne.symm h)]

/-- destroy never propagates an error when the bookkeeping record backs the
live instance. -/
theorem destroy_noThrow (st : ManagerState) (dt : Bool) (id : String)
    (h : ∀ proc, mlookup st.pluginProcesses id = some proc →
      (mlookup st.pluginProcessInfos id).isSome = true) :
    (destroy st dt id).2 = false := by
  cases hp : mlookup st.pluginProcesses id with
  | none => rw [destroy_of_absent st dt id hp]
  | some proc =>
    simp only [destroy, hp, destroyBody]
    by_cases hd : proc.hasDestroy && dt
    · simp only [hd, if_true]
      cases hi : mlookup st.pluginProcessInfos id with
      | none => simp [hi] at h; exact absurd (h proc hp) (by simp)
      | some i => simp
    · simp [hd]

/-- destroy touches neither the library nor the persistence collaborator nor
the one-time flag. -/
theorem destroy_frame (st : ManagerState) (dt : Bool) (id : String) :
    (destroy st dt id).1.pluginLibrary = st.pluginLibrary ∧
    (destroy st dt id).1.persisted = st.persisted ∧
    (destroy st dt id).1.hasAddedDefaultPlugins = st.hasAddedDefaultPlugins := by
  cases hp : mlookup st.pluginProcesses id with
  | none => rw [destroy_of_absent st dt id hp]; exact ⟨rfl, rfl, rfl⟩
  | some proc =>
    simp only [destroy, hp, destroyFinally, destroyBody]
    by_cases hd : proc.hasDestroy && dt
    · simp only [hd, if_true]
      cases hi : mlookup st.pluginProcessInfos id with
      | none => exact ⟨rfl, rfl, rfl⟩
      | some i => exact ⟨rfl, rfl, rfl⟩
    · simp only [hd, if_false]
      exact ⟨rfl, rfl, rfl⟩

end PluginManager

namespace PluginManager

/-- The invariant direction that the code maintains: every live registry
entry is backed by a bookkeeping record (the converse fails, see the C5
counterexample). -/
def ProcRegInv (st : ManagerState) : Prop :=
  ∀ id, (mlookup st.pluginProcesses id).isSome = true →
    (mlookup st.pluginProcessInfos id).isSome = true

theorem procRegInv_congr (a b : ManagerState)
    (h1 : a.pluginProcesses = b.pluginProcesses)
    (h2 : a.pluginProcessInfos = b.pluginProcessInfos)
    (h : ProcRegInv b) : ProcRegInv a := by
  intro id
  rw [h1, h2]
  exact h id

theorem procRegInv_init : ProcRegInv initState := by
  intro id h
  simp [initState, mlookup] at h

theorem procRegInv_destroy (st : ManagerState) (dt : Bool) (id : String)
    (h : ProcRegInv st) : ProcRegInv (destroy st dt id).1 := by
  intro k hk
  by_cases hki : k = id
  · subst hki
    rw [destroy_procs_self st dt k] at hk
    simp at hk
  · obtain ⟨e1, e2⟩ := destroy_ne st dt id k hki
    rw [e2]
    rw [e1] at hk
    exact h k hk

theorem procRegInv_spawn (exec : String → PluginBehavior) (st : ManagerState)
    (id : String) (h : ProcRegInv st) : ProcRegInv (spawn exec st id).1 := by
  intro k hk
  cases h1 : mlookup st.pluginProcesses id with
  | some p =>
    rw [spawn_of_live exec st id p h1] at hk ⊢
    exact h k hk
  | none =>
    cases h2 : findPlugin st.pluginLibrary id with
    | none =>
      rw [spawn_of_missing exec st id h1 h2] at hk ⊢
      exact h k hk
    | some plugin =>
      by_cases hki : k = id
      · subst hki
        rw [spawn_infos_main exec st k plugin h1 h2]
        rfl
      · rw [spawn_procs_ne exec st id k hki] at hk
        rw [spawn_infos_ne exec st id k hki
          (fun q hq => findPlugin_id_eq st.pluginLibrary id q hq)]
        exact h k hk

theorem load_maps (st : ManagerState) (id1 id2 : String) (now : Nat) :
    (load st id1 id2 now).pluginProcesses = st.pluginProcesses ∧
    (load st id1 id2 now).pluginProcessInfos = st.pluginProcessInfos := by
  cases hflag : st.hasAddedDefaultPlugins with
  | false => simp [load, addPluginToLibrary, hflag]
  | true => simp [load, hflag]

theorem add_maps (st : ManagerState) (name code freshId : String) (now : Nat) :
    (addPluginToLibrary st name code freshId now).1.pluginProcesses =
      st.pluginProcesses ∧
    (addPluginToLibrary st name code freshId now).1.pluginProcessInfos =
      st.pluginProcessInfos := by
  exact ⟨rfl, rfl⟩

theorem overwrite_maps (st : ManagerState) (dt : Bool)
    (newName pluginCode id : String) (now : Nat) :
    (overwritePlugin st dt newName pluginCode id now).1.pluginProcesses =
      (destroy st dt id).1.pluginProcesses ∧
    (overwritePlugin st dt newName pluginCode id now).1.pluginProcessInfos =
      (destroy st dt id).1.pluginProcessInfos := by
  unfold overwritePlugin
  cases hb : (destroy st dt id).2 with
  | true => simp [hb]
  | false =>
    cases hf : findPlugin (destroy st dt id).1.pluginLibrary id with
    | none => simp [hb, hf]
    | some p => simp [hb, hf]

theorem delete_maps (st : ManagerState) (dt : Bool) (id : String) :
    (deletePlugin st dt id).1.pluginProcesses =
      (destroy { st with pluginLibrary := removePlugin st.pluginLibrary id }
        dt id).1.pluginProcesses ∧
    (deletePlugin st dt id).1.pluginProcessInfos =
      (destroy { st with pluginLibrary := removePlugin st.pluginLibrary id }
        dt id).1.pluginProcessInfos := by
  unfold deletePlugin
  cases hb : (destroy { st with pluginLibrary := removePlugin st.pluginLibrary id } dt id).2 with
  | true => simp [hb]
  | false => simp [hb]

theorem procRegInv_render (exec : String → PluginBehavior) (st : ManagerState)
    (id : String) (rt : Bool) (h : ProcRegInv st) :
    ProcRegInv (render exec st id rt).1 := by
  have hs : ProcRegInv (spawn exec st id).1 := procRegInv_spawn exec st id h
  intro k hk
  unfold render at hk ⊢
  cases hv : (spawn exec st id).2.1 with
  | none =>
    simp only [hv] at hk ⊢
    exact hs k hk
  | some proc =>
    cases hi : mlookup (spawn exec st id).1.pluginProcessInfos id with
    | none =>
      simp only [hv, hi] at hk ⊢
      exact hs k hk
    | some info =>
      simp only [hv, hi] at hk ⊢
      by_cases hc : proc.hasRender && !info.rendered
      · simp only [hc, if_true] at hk ⊢
        cases hrt : rt with
        | true =>
          simp only [hrt, if_true, mlookup_minsert] at hk ⊢
          by_cases hki : id = k
          · simp [hki]
          · simp only [hki, if_false]
            exact hs k hk
        | false =>
          simp only [hrt, Bool.false_eq_true, if_false, mlookup_minsert]
            at hk ⊢
          by_cases hki : id = k
          · simp [hki]
          · simp only [hki, if_false]
            exact hs k hk
      · simp only [hc, if_false] at hk ⊢
        exact hs k hk

/-- One public operation of the Lifecycle Controller, with every oracle
choice (identities, timestamps, plugin behaviors, capability outcomes)
existentially free. -/
inductive Step : ManagerState → ManagerState → Prop
  | loadStep (st : ManagerState) (id1 id2 : String) (now : Nat) :
      Step st (load st id1 id2 now)
  | addStep (st : ManagerState) (name code freshId : String) (now : Nat) :
      Step st (addPluginToLibrary st name code freshId now).1
  | overwriteStep (st : ManagerState) (dt : Bool)
      (newName pluginCode id : String) (now : Nat) :
      Step st (overwritePlugin st dt newName pluginCode id now).1
  | deleteStep (st : ManagerState) (dt : Bool) (id : String) :
      Step st (deletePlugin st dt id).1
  | spawnStep (st : ManagerState) (exec : String → PluginBehavior)
      (id : String) : Step st (spawn exec st id).1
  | renderStep (st : ManagerState) (exec : String → PluginBehavior)
      (id : String) (rt : Bool) : Step st (render exec st id rt).1
  | destroyStep (st : ManagerState) (dt : Bool) (id : String) :
      Step st (destroy st dt id).1

/-- States reachable from the freshly constructed manager by any sequence of
public operations. -/
inductive Reachable : ManagerState → Prop
  | init : Reachable initState
  | step (st st' : ManagerState) (h : Reachable st) (hs : Step st st') :
      Reachable st'

theorem procRegInv_step (st st' : ManagerState) (hs : Step st st')
    (h : ProcRegInv st) : ProcRegInv st' := by
  cases hs with
  | loadStep id1 id2 now =>
    obtain ⟨e1, e2⟩ := load_maps st id1 id2 now
    exact procRegInv_congr _ st e1 e2 h
  | addStep name code freshId now =>
    obtain ⟨e1, e2⟩ := add_maps st name code freshId now
    exact procRegInv_congr _ st e1 e2 h
  | overwriteStep dt newName pluginCode id now =>
    obtain ⟨e1, e2⟩ := overwrite_maps st dt newName pluginCode id now
    exact procRegInv_congr _ (destroy st dt id).1 e1 e2
      (procRegInv_destroy st dt id h)
  | deleteStep dt id =>
    obtain ⟨e1, e2⟩ := delete_maps st dt id
    refine procRegInv_congr _ _ e1 e2 (procRegInv_destroy _ dt id ?_)
    intro k hk
    exact h k hk
  | spawnStep exec id => exact procRegInv_spawn exec st id h
  | renderStep exec id rt => exact procRegInv_render exec st id rt h
  | destroyStep dt id => exact procRegInv_destroy st dt id h

/-- In every reachable state, a live registry entry is backed by a
bookkeeping record. -/
theorem reachable_procRegInv (st : ManagerState) (h : Reachable st) :
    ProcRegInv st := by
  induction h with
  | init => exact procRegInv_init
  | step st st' hr hs ih => exact procRegInv_step st st' hs ih

end PluginManager

namespace PluginManager

/-- A plugin body that never registers anything and returns normally. -/
def behNone : String → PluginBehavior := fun _ => ⟨[], false⟩

/-- A demonstration instance exposing both capabilities. -/
def demoProc : PluginProcess := ⟨1, true, true⟩

/-- A second demonstration instance, distinguishable from the first. -/
def demoProcB : PluginProcess := ⟨2, true, true⟩

/-- A plugin body that registers demoProc and returns normally. -/
def behReg : String → PluginBehavior := fun _ => ⟨[demoProc], false⟩

/-- A plugin body that registers demoProc, then demoProcB, then raises. -/
def behRegThrow : String → PluginBehavior := fun _ => ⟨[demoProc, demoProcB], true⟩

/-- The demonstration plugin definition. -/
def demoPlugin : SerializedPlugin :=
  { code := "demo source", name := "demo", lastEdited := 0, enabled := true,
    id := "demo-id" }

/-- Manager state after adding one demonstration plugin to a fresh manager. -/
def demoAdded : ManagerState :=
  (addPluginToLibrary initState "demo" "demo source" "demo-id" 0).1

/-- State after spawning the demonstration plugin with a body that never
registers: a bookkeeping record exists with no registry entry. -/
def demoLeak : ManagerState := (spawn behNone demoAdded "demo-id").1

/-- State after spawning the demonstration plugin with a registering body:
a live instance backed by a bookkeeping record. -/
def demoRun : ManagerState := (spawn behReg demoAdded "demo-id").1

/-- C1: for every plugin identity with a live instance already present in the
Process Registry, spawn returns that same instance, changes nothing, and does
not compile or invoke the plugin source (no event); hence when a first spawn
resolves with an instance, a second spawn without an intervening destroy
returns the same instance with no further source invocation, and the first
call itself invoked the source at most once (its event list is empty or a
single source invocation). -/
theorem C1_spawn_idempotent (exec : String → PluginBehavior)
    (st : ManagerState) (id : String) (p : PluginProcess) :
    (mlookup st.pluginProcesses id = some p →
      spawn exec st id = (st, some p, [])) ∧
    ((spawn exec st id).2.1 = some p →
      spawn exec (spawn exec st id).1 id = ((spawn exec st id).1, some p, []) ∧
      ((spawn exec st id).2.2 = [] ∨
        ∃ c, (spawn exec st id).2.2 = [Event.sourceInvoked c])) := by
  constructor
  · intro h
    exact spawn_of_live exec st id p h
  · intro h
    have hlook : mlookup (spawn exec st id).1.pluginProcesses id = some p := by
      rw [← spawn_ret]
      exact h
    exact ⟨spawn_of_live exec (spawn exec st id).1 id p hlook,
      spawn_events exec st id⟩

theorem C1_spawn_idempotent_witness :
    spawn behReg demoRun "demo-id" = (demoRun, some demoProc, []) ∧
    spawn behReg (spawn behReg demoAdded "demo-id").1 "demo-id" =
      ((spawn behReg demoAdded "demo-id").1, some demoProc, []) :=
  ⟨(C1_spawn_idempotent behReg demoRun "demo-id" demoProc).1 (by decide),
   ((C1_spawn_idempotent behReg demoAdded "demo-id" demoProc).2
     (by decide)).1⟩

/-- C2: destroying an identity with a live instance backed by a bookkeeping
record removes both entries, never propagates an error (even when the destroy
capability raises), and when the capability does raise the failure is
recorded as hasError on the bookkeeping record inside the catch block, before
the finally block deletes the record.  The backing-record hypothesis holds in
every reachable state by reachable_procRegInv. -/
theorem C2_destroy_guaranteed_cleanup (st : ManagerState) (dt : Bool)
    (id : String) (proc : PluginProcess) (info : ProcessInfo)
    (hp : mlookup st.pluginProcesses id = some proc)
    (hi : mlookup st.pluginProcessInfos id = some info) :
    mlookup (destroy st dt id).1.pluginProcesses id = none ∧
    mlookup (destroy st dt id).1.pluginProcessInfos id = none ∧
    (destroy st dt id).2 = false ∧
    ((proc.hasDestroy && dt) = true →
      mlookup (destroyBody st dt id proc).1.pluginProcessInfos id =
        some { info with hasError := true }) := by
  refine ⟨destroy_procs_self st dt id, destroy_infos_of_live st dt id proc hp,
    destroy_noThrow st dt id ?_, ?_⟩
  · intro q _
    rw [hi]
    rfl
  · intro hcap
    simp only [destroyBody, hcap, if_true, hi, mlookup_minsert, if_pos rfl]

theorem C2_destroy_guaranteed_cleanup_witness :
    mlookup (destroy demoRun true "demo-id").1.pluginProcesses "demo-id" =
        none ∧
    mlookup (destroy demoRun true "demo-id").1.pluginProcessInfos "demo-id" =
        none ∧
    (destroy demoRun true "demo-id").2 = false ∧
    mlookup (destroyBody demoRun true "demo-id" demoProc).1.pluginProcessInfos
        "demo-id" = some ⟨false, true⟩ := by
  obtain ⟨a, b, c, d⟩ := C2_destroy_guaranteed_cleanup demoRun true "demo-id"
    demoProc ProcessInfo.new (by decide) (by decide)
  exact ⟨a, b, c, d (by decide)⟩

/-- C3: spawning a defined identity with no live instance whose body raises
does not propagate the failure (spawn resolves normally), marks the freshly
created bookkeeping record hasError = true with rendered still false, leaves
in the registry exactly the first instance the body registered before raising
(first-wins: later register calls are ignored), returns that registry
content, and invokes the source exactly once. -/
theorem C3_spawn_failure_contained (exec : String → PluginBehavior)
    (st : ManagerState) (id : String) (plugin : SerializedPlugin)
    (regs : List PluginProcess)
    (h1 : mlookup st.pluginProcesses id = none)
    (h2 : findPlugin st.pluginLibrary id = some plugin)
    (hb : exec plugin.code = ⟨regs, true⟩) :
    mlookup (spawn exec st id).1.pluginProcessInfos id = some ⟨false, true⟩ ∧
    mlookup (spawn exec st id).1.pluginProcesses id = regs.head? ∧
    (spawn exec st id).2.1 = regs.head? ∧
    (spawn exec st id).2.2 = [Event.sourceInvoked plugin.code] := by
  have hinfo := spawn_infos_main exec st id plugin h1 h2
  have hprocs := spawn_procs_main exec st id plugin h1 h2
  rw [hb] at hinfo hprocs
  refine ⟨hinfo, hprocs, ?_, ?_⟩
  · rw [spawn_ret, hprocs]
  · rw [spawn_main exec st id plugin h1 h2]

theorem C3_spawn_failure_contained_witness :
    mlookup (spawn behRegThrow demoAdded "demo-id").1.pluginProcessInfos
        "demo-id" = some ⟨false, true⟩ ∧
    mlookup (spawn behRegThrow demoAdded "demo-id").1.pluginProcesses
        "demo-id" = some demoProc ∧
    (spawn behRegThrow demoAdded "demo-id").2.1 = some demoProc ∧
    (spawn behRegThrow demoAdded "demo-id").2.2 =
        [Event.sourceInvoked "demo source"] := by
  obtain ⟨a, b, c, d⟩ := C3_spawn_failure_contained behRegThrow demoAdded
    "demo-id" demoPlugin [demoProc, demoProcB]
    (by decide) (by decide) (by decide)
  exact ⟨a, b, c, d⟩

/-- C10: for an identity no spawn attempt has created a bookkeeping record
for, getProcessInfo does not report an absent result but raises (the
JSON-round-trip copy helper applied to undefined throws), while for any
identity present in getAllProcessInfos it returns the record. -/
theorem C10_getProcessInfo_raises (st : ManagerState) (id : String) :
    (mlookup st.pluginProcessInfos id = none →
      getProcessInfo st id = Except.error ()) ∧
    (∀ i, mlookup (getAllProcessInfos st) id = some i →
      getProcessInfo st id = Except.ok i) := by
  constructor
  · intro h
    simp [getProcessInfo, h]
  · intro i h
    simp only [getAllProcessInfos] at h
    simp [getProcessInfo, h]

theorem C10_getProcessInfo_raises_witness :
    getProcessInfo initState "demo-id" = Except.error () ∧
    getProcessInfo demoLeak "demo-id" = Except.ok ProcessInfo.new :=
  ⟨(C10_getProcessInfo_raises initState "demo-id").1 (by decide),
   (C10_getProcessInfo_raises demoLeak "demo-id").2 ProcessInfo.new
     (by decide)⟩

end PluginManager

namespace PluginManager

theorem findPlugin_removePlugin (lib : List SerializedPlugin) (id : String) :
    findPlugin (removePlugin lib id) id = none := by
  induction lib with
  | nil => rfl
  | cons p rest ih =>
    by_cases h : p.id = id
    · simp [removePlugin, h, ih]
    · simp [removePlugin, findPlugin, h, ih]

theorem deletePlugin_library (st : ManagerState) (dt : Bool) (id : String) :
    (deletePlugin st dt id).1.pluginLibrary =
      removePlugin st.pluginLibrary id := by
  unfold deletePlugin
  have hfr := destroy_frame
    { st with pluginLibrary := removePlugin st.pluginLibrary id } dt id
  cases hb : (destroy { st with pluginLibrary := removePlugin st.pluginLibrary id } dt id).2 with
  | true =>
    simp only [hb, if_true]
    exact hfr.1
  | false =>
    simp only [hb, Bool.false_eq_true, if_false]
    exact hfr.1

theorem deletePlugin_noThrow (st : ManagerState) (dt : Bool) (id : String)
    (h : ∀ proc, mlookup st.pluginProcesses id = some proc →
      (mlookup st.pluginProcessInfos id).isSome = true) :
    (deletePlugin st dt id).2 = false := by
  unfold deletePlugin
  have hnt : (destroy { st with pluginLibrary := removePlugin st.pluginLibrary id } dt id).2 = false :=
    destroy_noThrow _ dt id h
  simp [hnt]

/-- C5 counterexample: the claimed registry-iff-bookkeeping invariant fails
in a reachable state.  Adding a plugin and then spawning it with a body that
never registers leaves a bookkeeping record for demo-id with an empty
registry slot. -/
theorem C5_registry_bookkeeping_iff_ce :
    Reachable demoLeak ∧
    mlookup demoLeak.pluginProcessInfos "demo-id" = some ProcessInfo.new ∧
    mlookup demoLeak.pluginProcesses "demo-id" = none := by
  refine ⟨?_, by decide, by decide⟩
  have h1 : Reachable demoAdded :=
    Reachable.step initState demoAdded Reachable.init
      (Step.addStep initState "demo" "demo source" "demo-id" 0)
  exact Reachable.step demoAdded demoLeak h1
    (Step.spawnStep demoAdded behNone "demo-id")

/-- C5 amended: in every state reachable by any sequence of the public
operations from the initial state, a plugin identity with an entry in the
Process Registry has a matching bookkeeping record; the converse direction
fails (a bookkeeping record can outlive the spawn attempt that created it,
see the counterexample). -/
theorem C5_registry_implies_bookkeeping (st : ManagerState)
    (h : Reachable st) (id : String) (p : PluginProcess)
    (hp : mlookup st.pluginProcesses id = some p) :
    (mlookup st.pluginProcessInfos id).isSome = true := by
  refine reachable_procRegInv st h id ?_
  rw [hp]
  rfl

theorem C5_registry_implies_bookkeeping_witness :
    (mlookup demoRun.pluginProcessInfos "demo-id").isSome = true := by
  have h1 : Reachable demoAdded :=
    Reachable.step initState demoAdded Reachable.init
      (Step.addStep initState "demo" "demo source" "demo-id" 0)
  have h2 : Reachable demoRun :=
    Reachable.step demoAdded demoRun h1
      (Step.spawnStep demoAdded behReg "demo-id")
  exact C5_registry_implies_bookkeeping demoRun h2 "demo-id" demoProc
    (by decide)

/-- C7 counterexample: deletePlugin does not always remove the bookkeeping
record.  In the reachable state demoLeak (bookkeeping record but no live
instance for demo-id), deletePlugin removes the definition but destroy is a
no-op, so getAllProcessInfos still reports demo-id afterward, contradicting
the claim that after deletePlugin no bookkeeping record for the identity
exists. -/
theorem C7_delete_ce :
    Reachable demoLeak ∧
    findPlugin (deletePlugin demoLeak false "demo-id").1.pluginLibrary
      "demo-id" = none ∧
    mlookup (getAllProcessInfos (deletePlugin demoLeak false "demo-id").1)
      "demo-id" = some ProcessInfo.new := by
  refine ⟨?_, by decide, by decide⟩
  have h1 : Reachable demoAdded :=
    Reachable.step initState demoAdded Reachable.init
      (Step.addStep initState "demo" "demo source" "demo-id" 0)
  exact Reachable.step demoAdded demoLeak h1
    (Step.spawnStep demoAdded behNone "demo-id")

/-- C7 amended: after deletePlugin the library contains no definition with
the identity and the registry holds no instance for it, with no error
propagated; the bookkeeping record is also removed whenever a live instance
existed at the call (in particular for a running, rendered plugin), but a
stale bookkeeping record left by a spawn attempt that never registered
survives deletePlugin.  The backing-record hypothesis holds in every
reachable state by reachable_procRegInv. -/
theorem C7_delete_cleanup_amended (st : ManagerState) (dt : Bool)
    (id : String)
    (hinv : ∀ proc, mlookup st.pluginProcesses id = some proc →
      (mlookup st.pluginProcessInfos id).isSome = true) :
    findPlugin (deletePlugin st dt id).1.pluginLibrary id = none ∧
    mlookup (deletePlugin st dt id).1.pluginProcesses id = none ∧
    ((mlookup st.pluginProcesses id).isSome = true →
      mlookup (deletePlugin st dt id).1.pluginProcessInfos id = none) ∧
    (deletePlugin st dt id).2 = false := by
  have hlib := deletePlugin_library st dt id
  have hmaps := delete_maps st dt id
  refine ⟨?_, ?_, ?_, deletePlugin_noThrow st dt id hinv⟩
  · rw [hlib]
    exact findPlugin_removePlugin st.pluginLibrary id
  · rw [hmaps.1]
    exact destroy_procs_self _ dt id
  · intro hsome
    rw [hmaps.2]
    cases hp : mlookup st.pluginProcesses id with
    | none => rw [hp] at hsome; simp at hsome
    | some proc =>
      exact destroy_infos_of_live _ dt id proc hp

theorem C7_delete_cleanup_amended_witness :
    findPlugin (deletePlugin demoRun true "demo-id").1.pluginLibrary
        "demo-id" = none ∧
    mlookup (deletePlugin demoRun true "demo-id").1.pluginProcesses
        "demo-id" = none ∧
    mlookup (deletePlugin demoRun true "demo-id").1.pluginProcessInfos
        "demo-id" = none ∧
    (deletePlugin demoRun true "demo-id").2 = false := by
  obtain ⟨a, b, c, d⟩ := C7_delete_cleanup_amended demoRun true "demo-id"
    (fun proc hp => by decide)
  exact ⟨a, b, c (by decide), d⟩

end PluginManager

namespace PluginManager

/-- render never touches the registry beyond what its inner spawn did. -/
theorem render_procs (exec : String → PluginBehavior) (st : ManagerState)
    (id : String) (rt : Bool) :
    (render exec st id rt).1.pluginProcesses =
      (spawn exec st id).1.pluginProcesses := by
  unfold render
  cases hv : (spawn exec st id).2.1 with
  | none => simp [hv]
  | some proc =>
    cases hi : mlookup (spawn exec st id).1.pluginProcessInfos id with
    | none => simp [hv, hi]
    | some info =>
      by_cases hc : (proc.hasRender && !info.rendered) = true
      · cases rt <;> simp [hv, hi, hc]
      · simp [hv, hi, hc]

/-- When all four render conditions hold, the bookkeeping record after render
reflects the outcome of the capability call (lines 233-237). -/
theorem render_invoke_infos (exec : String → PluginBehavior)
    (st : ManagerState) (id : String) (rt : Bool) (proc : PluginProcess)
    (info : ProcessInfo) (hv : (spawn exec st id).2.1 = some proc)
    (hi : mlookup (spawn exec st id).1.pluginProcessInfos id = some info)
    (hr : proc.hasRender = true) (hn : info.rendered = false) :
    mlookup (render exec st id rt).1.pluginProcessInfos id =
      some (if rt then { info with hasError := true }
        else { info with rendered := true }) := by
  unfold render
  cases rt <;> simp [hv, hi, hr, hn, mlookup_minsert]

/-- When all four render conditions hold, render appends exactly one render
invocation to the events of its inner spawn. -/
theorem render_invoke_events (exec : String → PluginBehavior)
    (st : ManagerState) (id : String) (rt : Bool) (proc : PluginProcess)
    (info : ProcessInfo) (hv : (spawn exec st id).2.1 = some proc)
    (hi : mlookup (spawn exec st id).1.pluginProcessInfos id = some info)
    (hr : proc.hasRender = true) (hn : info.rendered = false) :
    (render exec st id rt).2 =
      (spawn exec st id).2.2 ++ [Event.renderInvoked id] := by
  unfold render
  cases rt <;> simp [hv, hi, hr, hn]

/-- When one of the render conditions fails, render is its inner spawn. -/
theorem render_noInvoke (exec : String → PluginBehavior) (st : ManagerState)
    (id : String) (rt : Bool)
    (h : ∀ proc info, (spawn exec st id).2.1 = some proc →
      mlookup (spawn exec st id).1.pluginProcessInfos id = some info →
      proc.hasRender = false ∨ info.rendered = true) :
    render exec st id rt = ((spawn exec st id).1, (spawn exec st id).2.2) := by
  unfold render
  cases hv : (spawn exec st id).2.1 with
  | none => simp [hv]
  | some proc =>
    cases hi : mlookup (spawn exec st id).1.pluginProcessInfos id with
    | none => simp [hv, hi]
    | some info =>
      rcases h proc info hv hi with hc | hc <;> simp [hv, hi, hc]

/-- spawn emits only source invocations, never render invocations. -/
theorem spawn_no_renderInvoked (exec : String → PluginBehavior)
    (st : ManagerState) (id k : String) :
    Event.renderInvoked k ∉ (spawn exec st id).2.2 := by
  rcases spawn_events exec st id with h | ⟨c, h⟩ <;> simp [h]

/-- C4: render invokes the render capability exactly when the inner spawn
returned a live instance exposing render, a bookkeeping record exists for the
identity, and rendered is still false.  On success rendered is set to true
and any subsequent render call does not invoke the capability again; on
failure hasError is set to true while rendered stays false (the stored
record is the original one with hasError set), so a subsequent render call
invokes the capability again.  Nothing propagates: render is a total
function of the state. -/
theorem C4_render_at_most_once (exec : String → PluginBehavior)
    (st : ManagerState) (id : String) (rt : Bool) :
    (Event.renderInvoked id ∈ (render exec st id rt).2 ↔
      ∃ proc info, (spawn exec st id).2.1 = some proc ∧
        mlookup (spawn exec st id).1.pluginProcessInfos id = some info ∧
        proc.hasRender = true ∧ info.rendered = false) ∧
    (∀ proc info, (spawn exec st id).2.1 = some proc →
      mlookup (spawn exec st id).1.pluginProcessInfos id = some info →
      proc.hasRender = true → info.rendered = false →
      (rt = false →
        mlookup (render exec st id rt).1.pluginProcessInfos id =
          some { info with rendered := true } ∧
        ∀ rt2, Event.renderInvoked id ∉
          (render exec (render exec st id rt).1 id rt2).2) ∧
      (rt = true →
        mlookup (render exec st id rt).1.pluginProcessInfos id =
          some { info with hasError := true } ∧
        ∀ rt2, Event.renderInvoked id ∈
          (render exec (render exec st id rt).1 id rt2).2)) := by
  constructor
  · constructor
    · intro hmem
      unfold render at hmem
      cases hv : (spawn exec st id).2.1 with
      | none =>
        simp only [hv] at hmem
        exact absurd hmem (spawn_no_renderInvoked exec st id id)
      | some proc =>
        cases hi : mlookup (spawn exec st id).1.pluginProcessInfos id with
        | none =>
          simp only [hv, hi] at hmem
          exact absurd hmem (spawn_no_renderInvoked exec st id id)
        | some info =>
          by_cases hc : (proc.hasRender && !info.rendered) = true
          · have hr : proc.hasRender = true := by
              rcases Bool.and_eq_true_iff.mp hc with ⟨h1, _⟩
              exact h1
            have hn : info.rendered = false := by
              rcases Bool.and_eq_true_iff.mp hc with ⟨_, h2⟩
              simpa using h2
            exact ⟨proc, info, rfl, rfl, hr, hn⟩
          · simp only [hv, hi, hc, if_false] at hmem
            exact absurd hmem (spawn_no_renderInvoked exec st id id)
    · rintro ⟨proc, info, hv, hi, hr, hn⟩
      rw [render_invoke_events exec st id rt proc info hv hi hr hn]
      simp
  · intro proc info hv hi hr hn
    have hinfos := render_invoke_infos exec st id rt proc info hv hi hr hn
    have hregs : mlookup (render exec st id rt).1.pluginProcesses id =
        some proc := by
      rw [render_procs, ← spawn_ret]
      exact hv
    have hspawn2 : spawn exec (render exec st id rt).1 id =
        ((render exec st id rt).1, some proc, []) :=
      spawn_of_live exec (render exec st id rt).1 id proc hregs
    constructor
    · intro hrt
      subst hrt
      rw [if_neg (by simp)] at hinfos
      refine ⟨by simpa using hinfos, ?_⟩
      intro rt2
      have hni : render exec (render exec st id false).1 id rt2 =
          ((spawn exec (render exec st id false).1 id).1,
           (spawn exec (render exec st id false).1 id).2.2) := by
        refine render_noInvoke exec (render exec st id false).1 id rt2 ?_
        intro proc2 info2 hv2 hi2
        rw [hspawn2] at hv2 hi2
        simp only at hv2
        rw [hinfos] at hi2
        right
        cases hi2
        rfl
      rw [hni, hspawn2]
      simp
    · intro hrt
      subst hrt
      rw [if_pos rfl] at hinfos
      refine ⟨by simpa using hinfos, ?_⟩
      intro rt2
      have hv2 : (spawn exec (render exec st id true).1 id).2.1 =
          some proc := by
        rw [hspawn2]
      have hi2 : mlookup
          (spawn exec (render exec st id true).1 id).1.pluginProcessInfos id =
          some { info with hasError := true } := by
        rw [hspawn2]
        exact hinfos
      have hev := render_invoke_events exec (render exec st id true).1 id rt2
        proc { info with hasError := true } hv2 hi2 hr (by simpa using hn)
      rw [hev, hspawn2]
      simp

theorem C4_render_at_most_once_witness :
    Event.renderInvoked "demo-id" ∈ (render behReg demoAdded "demo-id" false).2 ∧
    mlookup (render behReg demoAdded "demo-id" false).1.pluginProcessInfos
        "demo-id" = some ⟨true, false⟩ ∧
    (Event.renderInvoked "demo-id" ∉
      (render behReg (render behReg demoAdded "demo-id" false).1 "demo-id"
        false).2) ∧
    mlookup (render behReg demoAdded "demo-id" true).1.pluginProcessInfos
        "demo-id" = some ⟨false, true⟩ ∧
    (Event.renderInvoked "demo-id" ∈
      (render behReg (render behReg demoAdded "demo-id" true).1 "demo-id"
        true).2) := by
  have hsucc := ((C4_render_at_most_once behReg demoAdded "demo-id" false).2
    demoProc ProcessInfo.new (by decide) (by decide) (by decide)
    (by decide)).1 rfl
  have hfail := ((C4_render_at_most_once behReg demoAdded "demo-id" true).2
    demoProc ProcessInfo.new (by decide) (by decide) (by decide)
    (by decide)).2 rfl
  have hmem := (C4_render_at_most_once behReg demoAdded "demo-id" false).1.mpr
    ⟨demoProc, ProcessInfo.new, by decide, by decide, by decide, by decide⟩
  exact ⟨hmem, hsucc.1, hsucc.2 false, hfail.1, hfail.2 true⟩

end PluginManager

namespace PluginManager

theorem findPlugin_updateFirst (lib : List SerializedPlugin) (id : String)
    (f : SerializedPlugin → SerializedPlugin)
    (hf : ∀ p, (f p).id = p.id) :
    findPlugin (updateFirst lib id f) id = (findPlugin lib id).map f := by
  induction lib with
  | nil => rfl
  | cons p rest ih =>
    by_cases h : p.id = id
    · simp [updateFirst, findPlugin, h, hf p]
    · simp [updateFirst, findPlugin, h, ih]

theorem overwrite_noThrow (st : ManagerState) (dt : Bool)
    (newName newCode id : String) (now : Nat)
    (h : ∀ proc, mlookup st.pluginProcesses id = some proc →
      (mlookup st.pluginProcessInfos id).isSome = true) :
    (overwritePlugin st dt newName newCode id now).2 = false := by
  unfold overwritePlugin
  have hnt := destroy_noThrow st dt id h
  simp only [hnt, Bool.false_eq_true, if_false]
  cases hf : findPlugin (destroy st dt id).1.pluginLibrary id <;> simp [hf]

theorem overwrite_library_none (st : ManagerState) (dt : Bool)
    (newName newCode id : String) (now : Nat)
    (hnt : (destroy st dt id).2 = false)
    (hf : findPlugin st.pluginLibrary id = none) :
    (overwritePlugin st dt newName newCode id now).1.pluginLibrary =
        st.pluginLibrary ∧
    (overwritePlugin st dt newName newCode id now).1.persisted =
        st.persisted := by
  have hfr := destroy_frame st dt id
  have hf2 : findPlugin (destroy st dt id).1.pluginLibrary id = none := by
    rw [hfr.1]
    exact hf
  simp only [overwritePlugin, hnt, Bool.false_eq_true, if_false, hf2]
  exact ⟨hfr.1, hfr.2.1⟩

theorem overwrite_library_some (st : ManagerState) (dt : Bool)
    (newName newCode id : String) (now : Nat)
    (hnt : (destroy st dt id).2 = false)
    (p : SerializedPlugin) (hf : findPlugin st.pluginLibrary id = some p) :
    (overwritePlugin st dt newName newCode id now).1.pluginLibrary =
      updateFirst st.pluginLibrary id (fun q =>
        { q with code := newCode, name := newName, lastEdited := now }) ∧
    (overwritePlugin st dt newName newCode id now).1.persisted =
      (overwritePlugin st dt newName newCode id now).1.pluginLibrary := by
  have hfr := destroy_frame st dt id
  have hf2 : findPlugin (destroy st dt id).1.pluginLibrary id = some p := by
    rw [hfr.1]
    exact hf
  simp only [overwritePlugin, hnt, Bool.false_eq_true, if_false, hf2]
  rw [hfr.1]
  exact ⟨rfl, trivial⟩

/-- C6: overwritePlugin first destroys any live process (the registry slot
for the identity is empty afterward, unconditionally, even when the identity
is not in the library), never propagates an error; when a live instance
existed, its bookkeeping record is gone afterward so getProcessInfo raises,
meaning the process is reported gone; the definition, when present, gets its
code, name and lastEdited replaced in place and the whole library is
persisted; when absent, library and persisted store are untouched with no
error; and a later spawn of the identity compiles and invokes the new source
text.  The backing-record hypothesis holds in every reachable state by
reachable_procRegInv. -/
theorem C6_overwrite_invalidates (st : ManagerState) (dt : Bool)
    (newName newCode id : String) (now : Nat)
    (hinv : ∀ proc, mlookup st.pluginProcesses id = some proc →
      (mlookup st.pluginProcessInfos id).isSome = true) :
    mlookup (overwritePlugin st dt newName newCode id
        now).1.pluginProcesses id = none ∧
    (overwritePlugin st dt newName newCode id now).2 = false ∧
    ((mlookup st.pluginProcesses id).isSome = true →
      mlookup (overwritePlugin st dt newName newCode id
          now).1.pluginProcessInfos id = none ∧
      getProcessInfo (overwritePlugin st dt newName newCode id now).1 id =
        Except.error ()) ∧
    (findPlugin st.pluginLibrary id = none →
      (overwritePlugin st dt newName newCode id now).1.pluginLibrary =
          st.pluginLibrary ∧
      (overwritePlugin st dt newName newCode id now).1.persisted =
          st.persisted) ∧
    (∀ p, findPlugin st.pluginLibrary id = some p →
      findPlugin (overwritePlugin st dt newName newCode id
          now).1.pluginLibrary id =
        some { p with code := newCode, name := newName, lastEdited := now } ∧
      (overwritePlugin st dt newName newCode id now).1.persisted =
        (overwritePlugin st dt newName newCode id now).1.pluginLibrary ∧
      ∀ exec, (spawn exec (overwritePlugin st dt newName newCode id now).1
          id).2.2 = [Event.sourceInvoked newCode]) := by
  have hnt : (destroy st dt id).2 = false := destroy_noThrow st dt id hinv
  have hmaps := overwrite_maps st dt newName newCode id now
  have hprocs : mlookup (overwritePlugin st dt newName newCode id
      now).1.pluginProcesses id = none := by
    rw [hmaps.1]
    exact destroy_procs_self st dt id
  refine ⟨hprocs, overwrite_noThrow st dt newName newCode id now hinv,
    ?_, ?_, ?_⟩
  · intro hsome
    have hnone : mlookup (overwritePlugin st dt newName newCode id
        now).1.pluginProcessInfos id = none := by
      rw [hmaps.2]
      cases hp : mlookup st.pluginProcesses id with
      | none => rw [hp] at hsome; simp at hsome
      | some proc => exact destroy_infos_of_live st dt id proc hp
    exact ⟨hnone, by simp [getProcessInfo, hnone]⟩
  · intro hf
    exact overwrite_library_none st dt newName newCode id now hnt hf
  · intro p hf
    obtain ⟨hl, hper⟩ :=
      overwrite_library_some st dt newName newCode id now hnt p hf
    have hfind : findPlugin (overwritePlugin st dt newName newCode id
        now).1.pluginLibrary id =
        some { p with code := newCode, name := newName, lastEdited := now } := by
      have hfu := findPlugin_updateFirst st.pluginLibrary id
        (fun q => { q with code := newCode, name := newName, lastEdited := now })
        (fun q => rfl)
      rw [hl, hfu, hf]
      rfl
    refine ⟨hfind, hper, ?_⟩
    intro exec
    have hev := spawn_main exec (overwritePlugin st dt newName newCode id
      now).1 id { p with code := newCode, name := newName, lastEdited := now }
      hprocs hfind
    rw [hev]

theorem C6_overwrite_invalidates_witness :
    mlookup (overwritePlugin demoRun true "edited" "edited source" "demo-id"
        7).1.pluginProcesses "demo-id" = none ∧
    (overwritePlugin demoRun true "edited" "edited source" "demo-id" 7).2 =
        false ∧
    mlookup (overwritePlugin demoRun true "edited" "edited source" "demo-id"
        7).1.pluginProcessInfos "demo-id" = none ∧
    getProcessInfo (overwritePlugin demoRun true "edited" "edited source"
        "demo-id" 7).1 "demo-id" = Except.error () ∧
    findPlugin (overwritePlugin demoRun true "edited" "edited source"
        "demo-id" 7).1.pluginLibrary "demo-id" =
      some { code := "edited source", name := "edited", lastEdited := 7,
             enabled := true, id := "demo-id" } ∧
    (spawn behReg (overwritePlugin demoRun true "edited" "edited source"
        "demo-id" 7).1 "demo-id").2.2 =
      [Event.sourceInvoked "edited source"] := by
  obtain ⟨a, b, c, d, e⟩ := C6_overwrite_invalidates demoRun true "edited"
    "edited source" "demo-id" 7 (fun proc hp => by decide)
  obtain ⟨c1, c2⟩ := c (by decide)
  obtain ⟨e1, e2, e3⟩ := e demoPlugin (by decide)
  exact ⟨a, b, c1, c2, e1, e3 behReg⟩

/-- When the one-time flag is already set and the in-memory library agrees
with the persistent store, load changes nothing. -/
theorem load_of_flagSet (s : ManagerState) (a b : String) (n : Nat)
    (hflag : s.hasAddedDefaultPlugins = true)
    (hper : s.persisted = s.pluginLibrary) :
    load s a b n = s := by
  obtain ⟨lib, procs, infos, per, flag⟩ := s
  simp only at hflag hper
  subst hflag
  subst hper
  simp [load]

/-- C9: with the one-time flag unset and nothing yet in the library or the
persistent store, load seeds exactly the two named example definitions,
persists them, sets the flag, and leaves the in-memory library equal to the
persisted one; a second load call is the identity on the resulting state. -/
theorem C9_load_seeds_defaults (st : ManagerState) (id1 id2 id3 id4 : String)
    (now now2 : Nat) (hflag : st.hasAddedDefaultPlugins = false)
    (hlib : st.pluginLibrary = []) (hper : st.persisted = []) :
    (load st id1 id2 now).pluginLibrary =
      [{ code := README_PLUGIN, name := "README", lastEdited := now,
         enabled := true, id := id1 },
       { code := ARTIFACT_FINDER_PLUGIN, name := "Artifacts Finder",
         lastEdited := now, enabled := true, id := id2 }] ∧
    (load st id1 id2 now).persisted = (load st id1 id2 now).pluginLibrary ∧
    (load st id1 id2 now).hasAddedDefaultPlugins = true ∧
    load (load st id1 id2 now) id3 id4 now2 = load st id1 id2 now := by
  refine ⟨?_, ?_, ?_, ?_⟩
  · simp [load, addPluginToLibrary, hflag, hlib, hper]
  · simp [load, addPluginToLibrary, hflag, hlib, hper]
  · simp [load, addPluginToLibrary, hflag]
  · have h1 : (load st id1 id2 now).hasAddedDefaultPlugins = true := by
      simp [load, addPluginToLibrary, hflag]
    have h2 : (load st id1 id2 now).persisted =
        (load st id1 id2 now).pluginLibrary := by
      simp [load, addPluginToLibrary, hflag, hlib, hper]
    exact load_of_flagSet (load st id1 id2 now) id3 id4 now2 h1 h2

theorem C9_load_seeds_defaults_witness :
    (load initState "id-one" "id-two" 3).pluginLibrary =
      [{ code := README_PLUGIN, name := "README", lastEdited := 3,
         enabled := true, id := "id-one" },
       { code := ARTIFACT_FINDER_PLUGIN, name := "Artifacts Finder",
         lastEdited := 3, enabled := true, id := "id-two" }] ∧
    (load initState "id-one" "id-two" 3).persisted =
      (load initState "id-one" "id-two" 3).pluginLibrary ∧
    (load initState "id-one" "id-two" 3).hasAddedDefaultPlugins = true ∧
    load (load initState "id-one" "id-two" 3) "id-three" "id-four" 9 =
      load initState "id-one" "id-two" 3 :=
  C9_load_seeds_defaults initState "id-one" "id-two" "id-three" "id-four"
    3 9 rfl rfl rfl

end PluginManager

namespace PluginManager

/-- Default value read from an unallocated plugin reference; unreachable
under the well-formedness condition used below. -/
def defaultPlugin : SerializedPlugin := ⟨"", "", 0, false, ""⟩

/-- Default value read from an unallocated bookkeeping reference. -/
def defaultInfo : ProcessInfo := ⟨false, false⟩

/-- Heap refinement of the manager for the copy-isolation claim: JavaScript
objects have identity, so the internal pluginLibrary array and
pluginProcessInfos record are lists of references into explicit object heaps
(pheap for plugin definitions, iheap for bookkeeping records), with pnext and
inext the next fresh addresses.  PluginManager.copy, being
JSON.parse(JSON.stringify(x)), materialises a fresh object with the same
value, embedded as allocation at a fresh address; returning the internal
object itself, as getPluginFromLibrary does, is embedded as returning the
internal reference. -/
structure RState where
  pnext : Nat
  pheap : List (Nat × SerializedPlugin)
  libRefs : List Nat
  inext : Nat
  iheap : List (Nat × ProcessInfo)
  infoRefs : List (String × Nat)
deriving DecidableEq, Repr

/-- Dereference a plugin object. -/
def readP (h : List (Nat × SerializedPlugin)) (l : Nat) : SerializedPlugin :=
  (mlookup h l).getD defaultPlugin

/-- Dereference a bookkeeping object. -/
def readI (h : List (Nat × ProcessInfo)) (l : Nat) : ProcessInfo :=
  (mlookup h l).getD defaultInfo

/-- The values of the internal library, in order: these determine what every
fresh read accessor returns. -/
def libValues (st : RState) : List SerializedPlugin :=
  st.libRefs.map (readP st.pheap)

/-- The values of the internal bookkeeping record, key by key. -/
def infoValues (st : RState) : List (String × ProcessInfo) :=
  st.infoRefs.map (fun kl => (kl.1, readI st.iheap kl.2))

/-- A caller mutating (a field of) the plugin object behind reference l. -/
def writeP (st : RState) (l : Nat) (v : SerializedPlugin) : RState :=
  { st with pheap := minsert st.pheap l v }

/-- A caller mutating the bookkeeping object behind reference l. -/
def writeI (st : RState) (l : Nat) (v : ProcessInfo) : RState :=
  { st with iheap := minsert st.iheap l v }

/-- Allocate one fresh object per given value, in order; returns the grown
heap, the new allocation counter, and the fresh references. -/
def alloc {β : Type} (h : List (Nat × β)) (next : Nat) :
    List β → List (Nat × β) × Nat × List Nat
  | [] => (h, next, [])
  | v :: rest =>
    let r := alloc (minsert h next v) (next + 1) rest
    (r.1, r.2.1, next :: r.2.2)

/-- getLibrary in the heap model (line 246): a fresh copy of every library
entry, the internal references untouched. -/
def getLibraryR (st : RState) : RState × List Nat :=
  let r := alloc st.pheap st.pnext (libValues st)
  ({ st with
     pheap := r.1
     pnext := r.2.1 }, r.2.2)

/-- The find of getPluginFromLibrary over the internal reference array. -/
def findRef (h : List (Nat × SerializedPlugin)) :
    List Nat → String → Option Nat
  | [], _ => none
  | l :: rest, id => if (readP h l).id = id then some l else findRef h rest id

/-- getPluginFromLibrary in the heap model (line 137): the source returns
this.pluginLibrary.find(...), the internal object itself — so the internal
reference, not a copy. -/
def getPluginFromLibraryR (st : RState) (id : String) : Option Nat :=
  findRef st.pheap st.libRefs id

/-- getProcessInfo in the heap model (line 253): a fresh copy of the record
behind the identity; none models the raising absent case (claim C10). -/
def getProcessInfoR (st : RState) (id : String) : RState × Option Nat :=
  match mlookup st.infoRefs id with
  | none => (st, none)
  | some l =>
    ({ st with
       iheap := minsert st.iheap st.inext (readI st.iheap l)
       inext := st.inext + 1 }, some st.inext)

/-- getAllProcessInfos in the heap model (lines 259-267): one fresh copy per
bookkeeping record. -/
def getAllProcessInfosR (st : RState) : RState × List (String × Nat) :=
  let r := alloc st.iheap st.inext
    (st.infoRefs.map (fun kl => readI st.iheap kl.2))
  ({ st with
     iheap := r.1
     inext := r.2.1 }, (st.infoRefs.map Prod.fst).zip r.2.2)

/-- addPluginToLibrary in the heap model (lines 165-178): the new definition
object is allocated and its reference appended to the internal array, and a
separate fresh copy is allocated for the returned value (line 177). -/
def addPluginToLibraryR (st : RState) (name code freshId : String)
    (now : Nat) : RState × Nat :=
  let v : SerializedPlugin := ⟨code, name, now, true, freshId⟩
  ({ st with
     pheap := minsert (minsert st.pheap st.pnext v) (st.pnext + 1) v
     pnext := st.pnext + 2
     libRefs := st.libRefs ++ [st.pnext] }, st.pnext + 1)

/-- Well-formedness: every internal reference is a previously allocated
address. -/
def WFr (st : RState) : Bool :=
  st.libRefs.all (fun l => decide (l < st.pnext)) &&
  st.infoRefs.all (fun kl => decide (kl.2 < st.inext))

theorem WFr_lib (st : RState) (h : WFr st = true) :
    ∀ l ∈ st.libRefs, l < st.pnext := by
  intro l hl
  rcases Bool.and_eq_true_iff.mp h with ⟨h1, _⟩
  exact of_decide_eq_true (List.all_eq_true.mp h1 l hl)

theorem WFr_info (st : RState) (h : WFr st = true) :
    ∀ kl ∈ st.infoRefs, kl.2 < st.inext := by
  intro kl hkl
  rcases Bool.and_eq_true_iff.mp h with ⟨_, h2⟩
  exact of_decide_eq_true (List.all_eq_true.mp h2 kl hkl)

/-- Allocation never disturbs previously allocated addresses. -/
theorem alloc_lookup_lt {β : Type} (h : List (Nat × β)) (next : Nat)
    (vals : List β) (l : Nat) (hl : l < next) :
    mlookup (alloc h next vals).1 l = mlookup h l := by
  induction vals generalizing h next with
  | nil => rfl
  | cons v rest ih =>
    have hstep := ih (minsert h next v) (next + 1) (Nat.lt_succ_of_lt hl)
    simp only [alloc]
    rw [hstep, mlookup_minsert, if_neg (Nat.ne_of_gt hl)]

/-- Every reference alloc returns is fresh. -/
theorem alloc_refs_ge {β : Type} (h : List (Nat × β)) (next : Nat)
    (vals : List β) : ∀ l ∈ (alloc h next vals).2.2, next ≤ l := by
  induction vals generalizing h next with
  | nil => intro l hl; simp [alloc] at hl
  | cons v rest ih =>
    intro l hl
    simp only [alloc, List.mem_cons] at hl
    rcases hl with rfl | hl
    · exact Nat.le_refl l
    · exact Nat.le_of_succ_le (ih (minsert h next v) (next + 1) l hl)

/-- The fresh objects alloc creates read back to exactly the given values:
the copies are faithful. -/
theorem alloc_reads {β : Type} (h : List (Nat × β)) (next : Nat)
    (vals : List β) (d : β) :
    (alloc h next vals).2.2.map
      (fun l => (mlookup (alloc h next vals).1 l).getD d) = vals := by
  induction vals generalizing h next with
  | nil => rfl
  | cons v rest ih =>
    simp only [alloc, List.map_cons]
    congr 1
    · rw [alloc_lookup_lt (minsert h next v) (next + 1) rest next
        (Nat.lt_succ_self next), mlookup_minsert, if_pos rfl]
      rfl
    · exact ih (minsert h next v) (next + 1)

theorem libValues_heap_congr (refs : List Nat)
    (h1 h2 : List (Nat × SerializedPlugin))
    (hc : ∀ l ∈ refs, mlookup h1 l = mlookup h2 l) :
    refs.map (readP h1) = refs.map (readP h2) := by
  induction refs with
  | nil => rfl
  | cons l rest ih =>
    simp only [List.map_cons]
    congr 1
    · unfold readP
      rw [hc l (List.mem_cons_self l rest)]
    · exact ih (fun r hr => hc r (List.mem_cons_of_mem l hr))

theorem infoValues_heap_congr (refs : List (String × Nat))
    (h1 h2 : List (Nat × ProcessInfo))
    (hc : ∀ kl ∈ refs, mlookup h1 kl.2 = mlookup h2 kl.2) :
    refs.map (fun kl => (kl.1, readI h1 kl.2)) =
      refs.map (fun kl => (kl.1, readI h2 kl.2)) := by
  induction refs with
  | nil => rfl
  | cons kl rest ih =>
    simp only [List.map_cons]
    congr 1
    · unfold readI
      rw [hc kl (List.mem_cons_self kl rest)]
    · exact ih (fun r hr => hc r (List.mem_cons_of_mem kl hr))

end PluginManager

namespace PluginManager

/-- A heap state holding the demonstration plugin behind address 0 and a
bookkeeping record for it behind address 0 of the record heap. -/
def rDemo : RState :=
  { pnext := 1
    pheap := [(0, demoPlugin)]
    libRefs := [0]
    inext := 1
    iheap := [(0, ProcessInfo.new)]
    infoRefs := [("demo-id", 0)] }

/-- The demonstration plugin with its name overwritten by a caller. -/
def demoPluginHacked : SerializedPlugin := { demoPlugin with name := "hacked" }

/-- C8 counterexample: getPluginFromLibrary does not return a copy.  It
returns the internal object itself (reference 0 here), so a caller mutating
the returned object changes the internal library values and hence the result
of a subsequent fresh getLibrary call, contradicting the claim that every
read accessor returns deep, independent copies. -/
theorem C8_copy_isolation_ce :
    getPluginFromLibraryR rDemo "demo-id" = some 0 ∧
    libValues (writeP rDemo 0 demoPluginHacked) ≠ libValues rDemo ∧
    (getLibraryR (writeP rDemo 0 demoPluginHacked)).2.map
        (readP (getLibraryR (writeP rDemo 0 demoPluginHacked)).1.pheap) ≠
      (getLibraryR rDemo).2.map (readP (getLibraryR rDemo).1.pheap) :=
  ⟨by decide, by decide, by decide⟩

/-- C8 amended: getLibrary, getProcessInfo and getAllProcessInfos return
deep, independent copies of internal state, and addPluginToLibrary returns a
defensive copy of the newly added definition: the returned copies carry the
internal values, and mutating any object they return never changes the
internal library or bookkeeping values (which determine the result of every
subsequent fresh accessor call).  getPluginFromLibrary is the exception the
counterexample forces: it returns the live internal object, which
overwritePlugin relies on for its in-place edit. -/
theorem C8_copy_isolation_amended (st : RState) (h : WFr st = true) :
    (libValues (getLibraryR st).1 = libValues st ∧
     (getLibraryR st).2.map (readP (getLibraryR st).1.pheap) = libValues st ∧
     (∀ l, l ∈ (getLibraryR st).2 → ∀ v,
       libValues (writeP (getLibraryR st).1 l v) = libValues st ∧
       infoValues (writeP (getLibraryR st).1 l v) = infoValues st)) ∧
    (∀ id l, (getProcessInfoR st id).2 = some l → ∀ v,
       infoValues (writeI (getProcessInfoR st id).1 l v) = infoValues st ∧
       libValues (writeI (getProcessInfoR st id).1 l v) = libValues st) ∧
    (∀ kl, kl ∈ (getAllProcessInfosR st).2 → ∀ v,
       infoValues (writeI (getAllProcessInfosR st).1 kl.2 v) =
         infoValues st) ∧
    (∀ name code freshId now v,
       libValues (writeP (addPluginToLibraryR st name code freshId now).1
           (addPluginToLibraryR st name code freshId now).2 v) =
         libValues (addPluginToLibraryR st name code freshId now).1) := by
  have hlib := WFr_lib st h
  have hinfo := WFr_info st h
  refine ⟨⟨?_, ?_, ?_⟩, ?_, ?_, ?_⟩
  · refine libValues_heap_congr st.libRefs _ st.pheap ?_
    intro l hl
    exact alloc_lookup_lt st.pheap st.pnext (libValues st) l (hlib l hl)
  · have := alloc_reads st.pheap st.pnext (libValues st) defaultPlugin
    simpa [getLibraryR, readP] using this
  · intro l hl v
    have hge : st.pnext ≤ l :=
      alloc_refs_ge st.pheap st.pnext (libValues st) l hl
    constructor
    · refine libValues_heap_congr st.libRefs _ st.pheap ?_
      intro r hr
      have hrlt : r < st.pnext := hlib r hr
      have hne : l ≠ r := Nat.ne_of_gt (Nat.lt_of_lt_of_le hrlt hge)
      unfold writeP getLibraryR
      simp only [mlookup_minsert, if_neg hne]
      exact alloc_lookup_lt st.pheap st.pnext (libValues st) r hrlt
    · rfl
  · intro id l hsome v
    cases hm : mlookup st.infoRefs id with
    | none => simp [getProcessInfoR, hm] at hsome
    | some l0 =>
      have h2 : (getProcessInfoR st id).2 = some st.inext := by
        simp [getProcessInfoR, hm]
      rw [hsome] at h2
      have hleq : l = st.inext := Option.some.inj h2
      subst hleq
      have h1 : (getProcessInfoR st id).1 =
          { st with
            iheap := minsert st.iheap st.inext (readI st.iheap l0)
            inext := st.inext + 1 } := by
        simp [getProcessInfoR, hm]
      constructor
      · rw [h1]
        refine infoValues_heap_congr st.infoRefs _ st.iheap ?_
        intro kl hkl
        have hklt : kl.2 < st.inext := hinfo kl hkl
        have hne : st.inext ≠ kl.2 := Nat.ne_of_gt hklt
        simp only [writeI, mlookup_minsert, if_neg hne]
      · rw [h1]
        rfl
  · intro kl hkl v
    obtain ⟨k, l⟩ := kl
    have hmem : l ∈ (alloc st.iheap st.inext
        (st.infoRefs.map (fun r => readI st.iheap r.2))).2.2 := by
      simp only [getAllProcessInfosR] at hkl
      exact (List.of_mem_zip hkl).2
    have hge : st.inext ≤ l := alloc_refs_ge st.iheap st.inext _ l hmem
    refine infoValues_heap_congr st.infoRefs _ st.iheap ?_
    intro r hr
    have hrlt : r.2 < st.inext := hinfo r hr
    have hne : l ≠ r.2 := Nat.ne_of_gt (Nat.lt_of_lt_of_le hrlt hge)
    unfold writeI getAllProcessInfosR
    simp only [mlookup_minsert, if_neg hne]
    exact alloc_lookup_lt st.iheap st.inext _ r.2 hrlt
  · intro name code freshId now v
    refine libValues_heap_congr _ _ _ ?_
    intro r hr
    have hrlt : r < st.pnext + 1 := by
      have hr2 : r ∈ st.libRefs ∨ r = st.pnext := by
        simpa [writeP, addPluginToLibraryR] using hr
      rcases hr2 with hr3 | hr3
      · exact Nat.lt_succ_of_lt (hlib r hr3)
      · subst hr3
        exact Nat.lt_succ_self st.pnext
    have hne : st.pnext + 1 ≠ r := Nat.ne_of_gt hrlt
    unfold writeP addPluginToLibraryR
    simp only [mlookup_minsert, if_neg hne]

theorem C8_copy_isolation_amended_witness :
    libValues (writeP (getLibraryR rDemo).1 1 demoPluginHacked) =
        libValues rDemo ∧
    infoValues (writeI (getProcessInfoR rDemo "demo-id").1 1 ⟨true, true⟩) =
        infoValues rDemo ∧
    infoValues (writeI (getAllProcessInfosR rDemo).1 1 ⟨true, true⟩) =
        infoValues rDemo := by
  have h := C8_copy_isolation_amended rDemo (by decide)
  refine ⟨(h.1.2.2 1 (by decide) demoPluginHacked).1,
    (h.2.1 "demo-id" 1 (by decide) ⟨true, true⟩).1,
    h.2.2.1 ("demo-id", 1) (by decide) ⟨true, true⟩⟩

end PluginManager
